import Mathlib

set_option autoImplicit false

namespace KernelSpec

/-- Error taxonomy of the allocator core (spec section 7). -/
inductive IonErr where
  | NoMatchingHeap
  | AllocationFailed
  | HeapBusy
  | PoolEmpty
  | AssignFailed
  | InvalidVmidFlags
  | NotFound
  | DoubleFree
deriving DecidableEq

/-- Physical extent of a scatter-gather list together with its current
access-domain (VMID) tag. -/
structure Extent where
  addr : Nat
  len : Nat
  vmid : Int
deriving DecidableEq

/-- Default / non-secure domain tag (HLOS), the domain extents live in before a
secure assignment and return to on unassignment. -/
def VMID_HLOS : Int := 3

/-- Modelled from the spec: the body of `ion_system_secure_heap_assign_sg` is not
in this fragment (`ion_priv.h` only declares it at line 230).  Per spec section
4.4 the assignment walks the scatter list transferring each extent from the
default/non-secure source domain to the destination domain; `failAt i` injects a
hypervisor failure at the i-th extent, and an extent that is not owned by the
non-secure source domain cannot be transferred and also fails.  On a mid-list
failure every already-assigned extent of the prefix is rolled back to its prior
domain (last assigned, first rolled back) before the call returns. -/
def assignSgGo (failAt : Nat → Bool) (dest : Int) : Nat → List Extent → List Extent × Bool
  | _, [] => ([], true)
  | i, e :: rest =>
    if failAt i ∨ e.vmid ≠ VMID_HLOS then (e :: rest, false)
    else
      let p := assignSgGo failAt dest (i + 1) rest
      if p.2 then (Extent.mk e.addr e.len dest :: p.1, true)
      else (e :: p.1, false)

/-- Modelled from the spec: `ion_system_secure_heap_assign_sg` transitions
ownership of every extent of the scatter list to `dest_vmid`; if any extent
fails, already-assigned extents are rolled back and the call reports
`AssignFailed`.  Returns the scatter list as observable after the call together
with the status. -/
def ion_system_secure_heap_assign_sg (failAt : Nat → Bool) (sgt : List Extent)
    (dest_vmid : Int) : List Extent × Except IonErr Unit :=
  let p := assignSgGo failAt dest_vmid 0 sgt
  if p.2 then (p.1, Except.ok ()) else (p.1, Except.error IonErr.AssignFailed)

/-- Modelled from the spec: the body of `ion_system_secure_heap_unassign_sg` is
not in this fragment (declared at `ion_priv.h` line 229).  It reverses an
assignment: every extent owned by `source_vmid` is returned to the
default/non-secure domain. -/
def ion_system_secure_heap_unassign_sg (sgt : List Extent) (source_vmid : Int) :
    List Extent :=
  sgt.map fun e => if e.vmid = source_vmid then Extent.mk e.addr e.len VMID_HLOS else e

theorem assign_sg_fst (failAt : Nat → Bool) (sgt : List Extent) (dest : Int) :
    (ion_system_secure_heap_assign_sg failAt sgt dest).1 =
      (assignSgGo failAt dest 0 sgt).1 := by
  unfold ion_system_secure_heap_assign_sg
  by_cases hp : (assignSgGo failAt dest 0 sgt).2 = true <;> simp [hp]

theorem assign_sg_ok_iff (failAt : Nat → Bool) (sgt : List Extent) (dest : Int) :
    (ion_system_secure_heap_assign_sg failAt sgt dest).2 = Except.ok () ↔
      (assignSgGo failAt dest 0 sgt).2 = true := by
  unfold ion_system_secure_heap_assign_sg
  by_cases hp : (assignSgGo failAt dest 0 sgt).2 = true <;> simp [hp]

theorem assign_sg_err_iff (failAt : Nat → Bool) (sgt : List Extent) (dest : Int) :
    (ion_system_secure_heap_assign_sg failAt sgt dest).2 =
        Except.error IonErr.AssignFailed ↔
      (assignSgGo failAt dest 0 sgt).2 = false := by
  unfold ion_system_secure_heap_assign_sg
  by_cases hp : (assignSgGo failAt dest 0 sgt).2 = true <;> simp [hp]

theorem assignSgGo_fail_eq (failAt : Nat → Bool) (dest : Int) :
    ∀ (i : Nat) (es : List Extent), (assignSgGo failAt dest i es).2 = false →
      (assignSgGo failAt dest i es).1 = es := by
  intro i es
  induction es generalizing i with
  | nil => intro h; simp [assignSgGo] at h
  | cons e rest ih =>
    intro h
    by_cases hc : failAt i ∨ e.vmid ≠ VMID_HLOS
    · simp [assignSgGo, hc]
    · by_cases hp : (assignSgGo failAt dest (i + 1) rest).2 = true
      · exfalso; simp [assignSgGo, hc, hp] at h
      · simp only [Bool.not_eq_true] at hp
        simp [assignSgGo, hc, hp, ih (i + 1) hp]

theorem assignSgGo_ok (failAt : Nat → Bool) (dest : Int) :
    ∀ (i : Nat) (es : List Extent), (assignSgGo failAt dest i es).2 = true →
      (assignSgGo failAt dest i es).1 =
        es.map (fun e => Extent.mk e.addr e.len dest) ∧
      ∀ e ∈ es, e.vmid = VMID_HLOS := by
  intro i es
  induction es generalizing i with
  | nil => intro _; simp [assignSgGo]
  | cons e rest ih =>
    intro h
    by_cases hc : failAt i ∨ e.vmid ≠ VMID_HLOS
    · simp [assignSgGo, hc] at h
    · have hvm : e.vmid = VMID_HLOS := not_not.mp fun hv => hc (Or.inr hv)
      by_cases hp : (assignSgGo failAt dest (i + 1) rest).2 = true
      · obtain ⟨h1, h2⟩ := ih (i + 1) hp
        refine ⟨by simp [assignSgGo, hc, hp, h1], ?_⟩
        intro x hx
        rcases List.mem_cons.mp hx with hx | hx
        · exact hx ▸ hvm
        · exact h2 x hx
      · exfalso
        simp only [Bool.not_eq_true] at hp
        simp [assignSgGo, hc, hp] at h

/-- C1: `ion_system_secure_heap_assign_sg` is all-or-nothing.  If it returns
success, every extent of the resulting scatter list is owned by `dest_vmid`; if
any extent fails, the call returns `AssignFailed` and the resulting scatter
list is exactly the input, i.e. all already-assigned extents have been rolled
back to their prior domain and no partially-assigned state is observable. -/
theorem C1_assign_sg_all_or_nothing (failAt : Nat → Bool) (sgt : List Extent)
    (dest_vmid : Int) :
    ((ion_system_secure_heap_assign_sg failAt sgt dest_vmid).2 = Except.ok () →
      ∀ e ∈ (ion_system_secure_heap_assign_sg failAt sgt dest_vmid).1,
        e.vmid = dest_vmid) ∧
    ((ion_system_secure_heap_assign_sg failAt sgt dest_vmid).2 =
        Except.error IonErr.AssignFailed →
      (ion_system_secure_heap_assign_sg failAt sgt dest_vmid).1 = sgt) := by
  constructor
  · intro hok e he
    have hp := (assign_sg_ok_iff failAt sgt dest_vmid).mp hok
    rw [assign_sg_fst, (assignSgGo_ok failAt dest_vmid 0 sgt hp).1] at he
    obtain ⟨x, _, hx⟩ := List.mem_map.mp he
    rw [← hx]
  · intro herr
    have hp := (assign_sg_err_iff failAt sgt dest_vmid).mp herr
    rw [assign_sg_fst]
    exact assignSgGo_fail_eq failAt dest_vmid 0 sgt hp

/-- Witness for C1: assigning a concrete one-extent scatter list to domain 42
with no injected failure succeeds and the extent ends up owned by domain 42. -/
theorem C1_assign_sg_all_or_nothing_witness :
    Extent.vmid (Extent.mk 4096 4096 42) = 42 :=
  (C1_assign_sg_all_or_nothing (fun _ => false) [Extent.mk 4096 4096 VMID_HLOS] 42).1
    rfl (Extent.mk 4096 4096 42) (by decide)

/-- C3: a successful `assign(list, vmid)` followed immediately by
`unassign(list, vmid)` restores every extent's domain tag to exactly the value
it had before the assign: the scatter list observed after the round trip equals
the original one. -/
theorem C3_assign_unassign_round_trip (failAt : Nat → Bool) (sgt : List Extent)
    (vmid : Int)
    (hok : (ion_system_secure_heap_assign_sg failAt sgt vmid).2 = Except.ok ()) :
    ion_system_secure_heap_unassign_sg
      (ion_system_secure_heap_assign_sg failAt sgt vmid).1 vmid = sgt := by
  have hp := (assign_sg_ok_iff failAt sgt vmid).mp hok
  obtain ⟨h1, h2⟩ := assignSgGo_ok failAt vmid 0 sgt hp
  rw [assign_sg_fst, h1]
  unfold ion_system_secure_heap_unassign_sg
  rw [List.map_map]
  have hcongr : ∀ e ∈ sgt,
      ((fun e => if Extent.vmid e = vmid then Extent.mk e.addr e.len VMID_HLOS else e) ∘
        fun e => Extent.mk e.addr e.len vmid) e = id e := by
    intro e he
    have := h2 e he
    cases e
    simp_all
  rw [List.map_congr_left hcongr, List.map_id]

/-- Witness for C3: a concrete two-extent scatter list assigned to domain 42 and
then unassigned comes back exactly as it started. -/
theorem C3_assign_unassign_round_trip_witness :
    ion_system_secure_heap_unassign_sg
      (ion_system_secure_heap_assign_sg (fun _ => false)
        [Extent.mk 0 4096 VMID_HLOS, Extent.mk 8192 4096 VMID_HLOS] 42).1 42 =
      [Extent.mk 0 4096 VMID_HLOS, Extent.mk 8192 4096 VMID_HLOS] :=
  C3_assign_unassign_round_trip (fun _ => false)
    [Extent.mk 0 4096 VMID_HLOS, Extent.mk 8192 4096 VMID_HLOS] 42 rfl

end KernelSpec

namespace KernelSpec

/-- Page handed out by the page pool; `highmem` is its memory class. -/
structure PoolPage where
  id : Nat
  highmem : Bool
deriving DecidableEq

/-- Shape of `struct ion_page_pool` (`ion_priv.h` lines 321-332): a count and an
item list per memory class, plus the allocation order; each item is one block of
that order. -/
structure ion_page_pool where
  high_count : Nat
  low_count : Nat
  high_items : List PoolPage
  low_items : List PoolPage
  order : Nat
deriving DecidableEq

/-- Private buffer flag `ION_PRIV_FLAG_SHRINKER_FREE` (`ion_priv.h` line 124):
the buffer is being freed from a shrinker, so pages that came from the system
allocator must be returned to it, not put in a page pool. -/
def ION_PRIV_FLAG_SHRINKER_FREE : Nat := 1 <<< 0

/-- Modelled from the spec: the body of `ion_page_pool_alloc` lives in
`ion_page_pool.c`, not in this fragment (declared at `ion_priv.h` line 337).
Per spec 4.5 it pops from the low-memory list if non-empty, else from the
high-memory list, else takes the fresh page supplied by the system allocator.
The result is `(pool after, page, from_pool, cache policy applied)`: the pool's
cache policy (`ion_page_pool_alloc_set_cache_policy`) is applied only on the
fresh-allocation path. -/
def ion_page_pool_alloc (pool : ion_page_pool) (fresh : PoolPage) :
    ion_page_pool × PoolPage × Bool × Bool :=
  match pool.low_items with
  | p :: rest =>
    (ion_page_pool.mk pool.high_count (pool.low_count - 1) pool.high_items rest
      pool.order, p, true, false)
  | [] =>
    match pool.high_items with
    | p :: rest =>
      (ion_page_pool.mk (pool.high_count - 1) pool.low_count rest pool.low_items
        pool.order, p, true, false)
    | [] => (pool, fresh, false, true)

/-- Modelled from the spec: `ion_page_pool_alloc_pool_only` (declared at
`ion_priv.h` line 338) is the same pop-low-then-high walk but fails with
`PoolEmpty` instead of allocating fresh; its signature takes no system page at
all. -/
def ion_page_pool_alloc_pool_only (pool : ion_page_pool) :
    ion_page_pool × Except IonErr PoolPage :=
  match pool.low_items with
  | p :: rest =>
    (ion_page_pool.mk pool.high_count (pool.low_count - 1) pool.high_items rest
      pool.order, Except.ok p)
  | [] =>
    match pool.high_items with
    | p :: rest =>
      (ion_page_pool.mk (pool.high_count - 1) pool.low_count rest pool.low_items
        pool.order, Except.ok p)
    | [] => (pool, Except.error IonErr.PoolEmpty)

/-- Modelled from the spec: `ion_page_pool_free` (declared at `ion_priv.h` line
339) pushes the page on the list of its memory class and increments that class
count. -/
def ion_page_pool_free (pool : ion_page_pool) (page : PoolPage) : ion_page_pool :=
  if page.highmem then
    ion_page_pool.mk (pool.high_count + 1) pool.low_count (page :: pool.high_items)
      pool.low_items pool.order
  else
    ion_page_pool.mk pool.high_count (pool.low_count + 1) pool.high_items
      (page :: pool.low_items) pool.order

/-- Modelled from the spec: `ion_page_pool_free_immediate` (declared at
`ion_priv.h` line 340) bypasses pooling entirely; the pool is untouched and the
page (second component) goes back to the system allocator now. -/
def ion_page_pool_free_immediate (pool : ion_page_pool) (page : PoolPage) :
    ion_page_pool × PoolPage :=
  (pool, page)

/-- Modelled from the spec: `ion_page_pool_shrink` (declared at `ion_priv.h`
lines 381-382) pops up to `nr_to_scan` items of the requested memory class and
returns them to the system; result is the pool afterwards and the count actually
reclaimed. -/
def ion_page_pool_shrink (pool : ion_page_pool) (high : Bool) (nr_to_scan : Nat) :
    ion_page_pool × Nat :=
  if high then
    let k := min nr_to_scan pool.high_items.length
    (ion_page_pool.mk (pool.high_count - k) pool.low_count
      (pool.high_items.drop k) pool.low_items pool.order, k)
  else
    let k := min nr_to_scan pool.low_items.length
    (ion_page_pool.mk pool.high_count (pool.low_count - k) pool.high_items
      (pool.low_items.drop k) pool.order, k)

/-- Modelled from the spec: `ion_page_pool_total` (declared at `ion_priv.h` line
341) answers the pool-size query in O(1) from the maintained counts alone; with
`high` set it counts both classes, otherwise only the low-memory class. -/
def ion_page_pool_total (pool : ion_page_pool) (high : Bool) : Nat :=
  if high then pool.low_count + pool.high_count else pool.low_count

/-- Invariant of spec section 3: each class count equals the length of its item
list. -/
def poolWF (pool : ion_page_pool) : Prop :=
  pool.high_count = pool.high_items.length ∧ pool.low_count = pool.low_items.length

/-- Modelled from the spec: the pooled system heap's `free` op (its body lives
in `ion_system_heap.c`, not in this fragment; the contract is documented on
`ion_heap_ops.free`, `ion_priv.h` lines 90-108).  With
`ION_PRIV_FLAG_SHRINKER_FREE` set in the buffer's private flags every page is
truly freed back to the system allocator via `ion_page_pool_free_immediate`;
otherwise each page is re-pooled via `ion_page_pool_free`.  Returns the pool
afterwards together with the pages handed back to the system allocator. -/
def ion_system_heap_free (private_flags : Nat) (pages : List PoolPage)
    (pool : ion_page_pool) : ion_page_pool × List PoolPage :=
  if private_flags &&& ION_PRIV_FLAG_SHRINKER_FREE ≠ 0 then
    (pages.foldl (fun pl pg => (ion_page_pool_free_immediate pl pg).1) pool, pages)
  else
    (pages.foldl (fun pl pg => ion_page_pool_free pl pg) pool, [])

theorem foldl_free_immediate_fixed (pages : List PoolPage) (pool : ion_page_pool) :
    pages.foldl (fun pl pg => (ion_page_pool_free_immediate pl pg).1) pool = pool := by
  induction pages with
  | nil => rfl
  | cons q qs ih => exact ih

/-- C2: freeing a pooled-heap buffer with the from-reclaimer flag
(`ION_PRIV_FLAG_SHRINKER_FREE`) hands every page back to the system allocator
and re-pools nothing: pages not in the pool before the call are in neither pool
list after it. -/
theorem C2_shrinker_free_bypasses_pool (private_flags : Nat)
    (pages : List PoolPage) (pool : ion_page_pool)
    (hflag : private_flags &&& ION_PRIV_FLAG_SHRINKER_FREE ≠ 0)
    (hlive : ∀ p ∈ pages, p ∉ pool.high_items ∧ p ∉ pool.low_items) :
    (∀ p ∈ pages,
      p ∉ (ion_system_heap_free private_flags pages pool).1.high_items ∧
      p ∉ (ion_system_heap_free private_flags pages pool).1.low_items) ∧
    (ion_system_heap_free private_flags pages pool).2 = pages := by
  have hpool := foldl_free_immediate_fixed pages pool
  unfold ion_system_heap_free
  simp only [hflag, if_pos (by exact hflag), hpool]
  exact ⟨hlive, trivial⟩

/-- Witness for C2: reclaimer-freeing a concrete one-page buffer against a pool
holding one other page reports exactly that page as returned to the system. -/
theorem C2_shrinker_free_bypasses_pool_witness :
    (ion_system_heap_free 1 [PoolPage.mk 1 false]
      (ion_page_pool.mk 1 0 [PoolPage.mk 2 true] [] 0)).2 = [PoolPage.mk 1 false] :=
  (C2_shrinker_free_bypasses_pool 1 [PoolPage.mk 1 false]
    (ion_page_pool.mk 1 0 [PoolPage.mk 2 true] [] 0) (by decide) (by decide)).2

/-- C5: `ion_page_pool_alloc_pool_only` never allocates fresh memory: it fails
with `PoolEmpty` exactly when both class lists are empty, and any page it does
return was already a member of one of the two class lists. -/
theorem C5_alloc_pool_only_no_fresh (pool : ion_page_pool) :
    ((ion_page_pool_alloc_pool_only pool).2 = Except.error IonErr.PoolEmpty ↔
      pool.low_items = [] ∧ pool.high_items = []) ∧
    ∀ p, (ion_page_pool_alloc_pool_only pool).2 = Except.ok p →
      p ∈ pool.low_items ∨ p ∈ pool.high_items := by
  obtain ⟨hc, lc, hi, li, ord⟩ := pool
  cases li with
  | nil =>
    cases hi with
    | nil => simp [ion_page_pool_alloc_pool_only]
    | cons q qs =>
      constructor
      · simp [ion_page_pool_alloc_pool_only]
      · intro p hp
        simp only [ion_page_pool_alloc_pool_only, Except.ok.injEq] at hp
        subst hp
        simp
  | cons q qs =>
    constructor
    · simp [ion_page_pool_alloc_pool_only]
    · intro p hp
      simp only [ion_page_pool_alloc_pool_only, Except.ok.injEq] at hp
      subst hp
      simp

/-- Witness for C5: the empty pool answers `PoolEmpty`. -/
theorem C5_alloc_pool_only_no_fresh_witness :
    (ion_page_pool_alloc_pool_only (ion_page_pool.mk 0 0 [] [] 0)).2 =
      Except.error IonErr.PoolEmpty :=
  (C5_alloc_pool_only_no_fresh (ion_page_pool.mk 0 0 [] [] 0)).1.mpr ⟨rfl, rfl⟩

/-- C6: `ion_page_pool_alloc` pops the head of the low-memory list if non-empty,
else the head of the high-memory list, else takes the fresh system page with
`from_pool = false`; the cache policy is applied exactly on the fresh path,
never on a page taken from either list. -/
theorem C6_page_pool_alloc_order (pool : ion_page_pool) (fresh : PoolPage) :
    (∀ p rest, pool.low_items = p :: rest →
      ion_page_pool_alloc pool fresh =
        (ion_page_pool.mk pool.high_count (pool.low_count - 1) pool.high_items
          rest pool.order, p, true, false)) ∧
    (∀ p rest, pool.low_items = [] → pool.high_items = p :: rest →
      ion_page_pool_alloc pool fresh =
        (ion_page_pool.mk (pool.high_count - 1) pool.low_count rest
          pool.low_items pool.order, p, true, false)) ∧
    (pool.low_items = [] → pool.high_items = [] →
      ion_page_pool_alloc pool fresh = (pool, fresh, false, true)) ∧
    (ion_page_pool_alloc pool fresh).2.2.2 =
      !(ion_page_pool_alloc pool fresh).2.2.1 := by
  obtain ⟨hc, lc, hi, li, ord⟩ := pool
  refine ⟨?_, ?_, ?_, ?_⟩
  · intro p rest h
    cases h
    simp [ion_page_pool_alloc]
  · intro p rest h1 h2
    cases h1
    cases h2
    simp [ion_page_pool_alloc]
  · intro h1 h2
    cases h1
    cases h2
    simp [ion_page_pool_alloc]
  · cases li with
    | nil => cases hi <;> simp [ion_page_pool_alloc]
    | cons q qs => simp [ion_page_pool_alloc]

/-- Witness for C6: allocating from the empty pool takes the fresh system page,
reports `from_pool = false` and applies the cache policy. -/
theorem C6_page_pool_alloc_order_witness :
    ion_page_pool_alloc (ion_page_pool.mk 0 0 [] [] 0) (PoolPage.mk 7 false) =
      (ion_page_pool.mk 0 0 [] [] 0, PoolPage.mk 7 false, false, true) :=
  (C6_page_pool_alloc_order (ion_page_pool.mk 0 0 [] [] 0)
    (PoolPage.mk 7 false)).2.2.1 rfl rfl

/-- C7: every pool operation keeps each class count equal to the length of its
item list, and under that invariant the O(1) total query answers the true
number of pooled items. -/
theorem C7_pool_counts_match_lists (pool : ion_page_pool) (fresh page : PoolPage)
    (high : Bool) (n : Nat) (hwf : poolWF pool) :
    poolWF (ion_page_pool_alloc pool fresh).1 ∧
    poolWF (ion_page_pool_alloc_pool_only pool).1 ∧
    poolWF (ion_page_pool_free pool page) ∧
    poolWF (ion_page_pool_free_immediate pool page).1 ∧
    poolWF (ion_page_pool_shrink pool high n).1 ∧
    ion_page_pool_total pool true =
      pool.low_items.length + pool.high_items.length := by
  obtain ⟨hc, lc, hi, li, ord⟩ := pool
  simp only [poolWF] at hwf
  obtain ⟨h1, h2⟩ := hwf
  refine ⟨?_, ?_, ?_, ?_, ?_, ?_⟩
  · cases li with
    | nil =>
      cases hi with
      | nil => exact ⟨h1, h2⟩
      | cons q qs => simp_all [ion_page_pool_alloc, poolWF]
    | cons q qs => simp_all [ion_page_pool_alloc, poolWF]
  · cases li with
    | nil =>
      cases hi with
      | nil => exact ⟨h1, h2⟩
      | cons q qs => simp_all [ion_page_pool_alloc_pool_only, poolWF]
    | cons q qs => simp_all [ion_page_pool_alloc_pool_only, poolWF]
  · cases hpm : page.highmem <;> simp_all [ion_page_pool_free, poolWF]
  · exact ⟨h1, h2⟩
  · cases high <;> simp_all [ion_page_pool_shrink, poolWF]
  · show lc + hc = li.length + hi.length
    omega

/-- Witness for C7 at a concrete well-formed pool holding one page per class. -/
theorem C7_pool_counts_match_lists_witness :
    poolWF (ion_page_pool_free
      (ion_page_pool.mk 1 1 [PoolPage.mk 2 true] [PoolPage.mk 3 false] 0)
      (PoolPage.mk 5 true)) :=
  (C7_pool_counts_match_lists
    (ion_page_pool.mk 1 1 [PoolPage.mk 2 true] [PoolPage.mk 3 false] 0)
    (PoolPage.mk 9 false) (PoolPage.mk 5 true) true 1 ⟨rfl, rfl⟩).2.2.1

end KernelSpec

namespace KernelSpec

/-- Lookup of a handle's refcount in the client id index, modelled as a list of
`(handle id, refcount)` entries (first match). -/
def lookupRef : List (Nat × Nat) → Nat → Option Nat
  | [], _ => none
  | (i, r) :: rest, hid => if i = hid then some r else lookupRef rest hid

/-- Modelled from the spec: the body of `ion_handle_put` is not in this
fragment (declared at `ion_priv.h` line 405; `struct ion_handle`, lines 57-64,
carries the refcount and the client id-index node).  The client id index is a
list of `(handle id, refcount)` entries; a handle holds its Buffer reference
exactly while it sits in the index.  `ion_handle_put idx hid n` decrements
handle `hid`'s refcount by `n`; at zero the handle is removed from the index
and its Buffer reference dropped (second component `true`); a put that would
take the refcount below zero is detected and reported as a `DoubleFree`
diagnostic, leaving index and counter untouched. -/
def ion_handle_put :
    List (Nat × Nat) → Nat → Nat → List (Nat × Nat) × Bool × Except IonErr Unit
  | [], _, _ => ([], false, Except.error IonErr.NotFound)
  | (i, r) :: rest, hid, n =>
    if i = hid then
      if r < n then ((i, r) :: rest, false, Except.error IonErr.DoubleFree)
      else if r = n then (rest, true, Except.ok ())
      else ((i, r - n) :: rest, false, Except.ok ())
    else
      let p := ion_handle_put rest hid n
      ((i, r) :: p.1, p.2.1, p.2.2)

theorem lookupRef_eq_none (l : List (Nat × Nat)) (hid : Nat)
    (h : hid ∉ l.map Prod.fst) : lookupRef l hid = none := by
  induction l with
  | nil => rfl
  | cons q rest ih =>
    obtain ⟨i, r⟩ := q
    simp only [List.map_cons, List.mem_cons] at h
    push_neg at h
    have hne : ¬ i = hid := fun hh => h.1 hh.symm
    simp only [lookupRef, if_neg hne]
    exact ih h.2

/-- C4: `ion_handle_put` decrements the handle's refcount by `n`; exactly when
the count reaches zero the handle disappears from the client id index and its
Buffer reference is dropped; a put past zero is reported as `DoubleFree` and
leaves the index (and so the counter) unchanged instead of wrapping. -/
theorem C4_handle_put_refcount (idx : List (Nat × Nat)) (hid n r : Nat)
    (hnodup : (idx.map Prod.fst).Nodup)
    (hfound : lookupRef idx hid = some r) :
    (n ≤ r →
      (ion_handle_put idx hid n).2.2 = Except.ok () ∧
      (ion_handle_put idx hid n).2.1 = decide (r - n = 0) ∧
      lookupRef (ion_handle_put idx hid n).1 hid =
        (if r - n = 0 then none else some (r - n))) ∧
    (r < n →
      (ion_handle_put idx hid n).2.2 = Except.error IonErr.DoubleFree ∧
      (ion_handle_put idx hid n).1 = idx ∧
      (ion_handle_put idx hid n).2.1 = false) := by
  induction idx with
  | nil => simp [lookupRef] at hfound
  | cons q rest ih =>
    obtain ⟨i, rr⟩ := q
    simp only [List.map_cons, List.nodup_cons] at hnodup
    by_cases hi : i = hid
    · subst hi
      simp [lookupRef] at hfound
      subst hfound
      constructor
      · intro hle
        rcases Nat.lt_or_ge n rr with hlt | hge
        · have hne : ¬ rr < n := Nat.not_lt.mpr hle
          have hne2 : ¬ rr = n := Nat.ne_of_gt hlt
          have hne3 : ¬ rr - n = 0 := Nat.sub_ne_zero_of_lt hlt
          simp [ion_handle_put, lookupRef, hne, hne2, hne3]
        · have heq : rr = n := Nat.le_antisymm hge hle
          subst heq
          simp [ion_handle_put, lookupRef_eq_none rest i hnodup.1, Nat.sub_self]
      · intro hlt
        have hne2 : ¬ rr = n := Nat.ne_of_lt hlt
        simp [ion_handle_put, hlt, hne2]
    · simp only [lookupRef, if_neg hi] at hfound
      obtain ⟨ha, hb⟩ := ih hnodup.2 hfound
      constructor
      · intro hle
        obtain ⟨h1, h2, h3⟩ := ha hle
        refine ⟨?_, ?_, ?_⟩ <;> simp [ion_handle_put, lookupRef, hi, h1, h2, h3]
      · intro hlt
        obtain ⟨h1, h2, h3⟩ := hb hlt
        refine ⟨?_, ?_, ?_⟩ <;> simp [ion_handle_put, hi, h1, h2, h3]

/-- Witness for C4: putting 2 on a handle with refcount 3 leaves refcount 1 in
the index; the index `[(5, 3), (9, 1)]` has distinct ids and holds handle 5. -/
theorem C4_handle_put_refcount_witness :
    lookupRef (ion_handle_put [(5, 3), (9, 1)] 5 2).1 5 = some 1 := by
  have h := (C4_handle_put_refcount [(5, 3), (9, 1)] 5 2 3 (by decide)
    (by decide)).1 (by decide)
  simpa using h.2.2

/-- Heap descriptor of the registry model: `id` (unique, doubles as allocation
priority), the heap `type` tag, and whether its backend `allocate` call
succeeds (`struct ion_heap`, `ion_priv.h` lines 152-162). -/
structure HeapDesc where
  id : Nat
  htype : Nat
  allocSucceeds : Bool
deriving DecidableEq

/-- Acceptance test of the allocation walk: the heap's id bit is set in
`heap_id_mask`, its type passes the optional filter, and its backend allocate
succeeds. -/
def heapMatches (heap_id_mask : Nat) (tf : Option Nat) (h : HeapDesc) : Bool :=
  heap_id_mask.testBit h.id &&
    (match tf with
     | none => true
     | some t => h.htype == t) &&
    h.allocSucceeds

/-- Modelled from the spec: the registry's allocation walk (`ion_walk_heaps`
declared at `ion_priv.h` lines 399-401; the walk itself lives in `ion.c`, not
in this fragment).  The registry keeps heaps in priority order (higher id =
higher priority); the walk returns the id of the first heap accepted by
`heapMatches`, the heap the new Handle is minted from, or `none` when no heap
is accepted. -/
def ion_allocate_walk (heaps : List HeapDesc) (heap_id_mask : Nat)
    (tf : Option Nat) : Option Nat :=
  match heaps with
  | [] => none
  | h :: rest =>
    if heapMatches heap_id_mask tf h then some h.id
    else ion_allocate_walk rest heap_id_mask tf

/-- C8: on a registry sorted by priority (higher id first, ids unique), the
allocation walk returns the id of a heap that passes the mask/type/allocate
test and beats every other passing heap in priority; it returns `none` exactly
when no registered heap passes.  Being a function of the registry and request
alone, the selection is the same on every repeated call. -/
theorem C8_allocate_priority_order (heaps : List HeapDesc) (mask : Nat)
    (tf : Option Nat) (hsorted : heaps.Pairwise (fun a b => b.id < a.id)) :
    (∀ hid, ion_allocate_walk heaps mask tf = some hid →
      ∃ h ∈ heaps, h.id = hid ∧ heapMatches mask tf h = true ∧
        ∀ h' ∈ heaps, heapMatches mask tf h' = true → h'.id ≤ h.id) ∧
    (ion_allocate_walk heaps mask tf = none ↔
      ∀ h ∈ heaps, heapMatches mask tf h = false) := by
  induction heaps with
  | nil => simp [ion_allocate_walk]
  | cons h rest ih =>
    rw [List.pairwise_cons] at hsorted
    obtain ⟨hlt, hrest⟩ := hsorted
    obtain ⟨ih1, ih2⟩ := ih hrest
    by_cases hm : heapMatches mask tf h = true
    · constructor
      · intro hid hrun
        simp only [ion_allocate_walk, if_pos hm, Option.some.injEq] at hrun
        refine ⟨h, List.mem_cons_self h rest, hrun, hm, ?_⟩
        intro h' hh' _
        rcases List.mem_cons.mp hh' with hh' | hh'
        · exact hh' ▸ le_refl _
        · exact Nat.le_of_lt (hlt h' hh')
      · constructor
        · intro hrun
          simp [ion_allocate_walk, if_pos hm] at hrun
        · intro hall
          exact absurd hm (by simp [hall h (List.mem_cons_self h rest)])
    · have hm' : heapMatches mask tf h = false := Bool.eq_false_iff.mpr hm
      constructor
      · intro hid hrun
        simp only [ion_allocate_walk, if_neg hm] at hrun
        obtain ⟨g, hg, hgid, hgm, hbest⟩ := ih1 hid hrun
        refine ⟨g, List.mem_cons_of_mem h hg, hgid, hgm, ?_⟩
        intro h' hh' hmm
        rcases List.mem_cons.mp hh' with hh' | hh'
        · exact absurd hmm (by rw [hh', hm']; simp)
        · exact hbest h' hh' hmm
      · simp only [ion_allocate_walk, if_neg hm]
        rw [ih2]
        constructor
        · intro hall g hg
          rcases List.mem_cons.mp hg with hg | hg
          · exact hg ▸ hm'
          · exact hall g hg
        · intro hall g hg
          exact hall g (List.mem_cons_of_mem h hg)

/-- Witness for C8: on a sorted one-heap registry whose heap fails its
allocation, the walk reports that no heap was accepted. -/
theorem C8_allocate_priority_order_witness :
    ion_allocate_walk [HeapDesc.mk 3 0 false] 8 none = none :=
  (C8_allocate_priority_order [HeapDesc.mk 3 0 false] 8 none
    (by simp)).2.mpr (by decide)

end KernelSpec

namespace KernelSpec

/-- Gate of the `lpfc_printf_vlog` macro (`lpfc_logmsg.h` lines 43-48): the
message reaches `dev_printk` iff `(mask) & (vport)->cfg_log_verbose` is
non-zero or `level[1] <= '3'`.  `level1` stands for `level[1]`, the severity
digit of the `KERN_*` level string. -/
def lpfc_printf_vlog (vport_cfg_log_verbose mask : Nat) (level1 : Char) : Bool :=
  decide (mask &&& vport_cfg_log_verbose ≠ 0) || decide (level1 ≤ '3')

/-- Gate of the `lpfc_printf_log` macro (`lpfc_logmsg.h` lines 50-59): the
verbosity is the port's `cfg_log_verbose` when a port is attached
(`(phba)->pport` non-NULL, modelled as `some`), else the adapter's own; the
message is emitted iff `(mask) & log_verbose` is non-zero or
`level[1] <= '3'`. -/
def lpfc_printf_log (pport_cfg_log_verbose : Option Nat)
    (phba_cfg_log_verbose mask : Nat) (level1 : Char) : Bool :=
  let log_verbose :=
    match pport_cfg_log_verbose with
    | some v => v
    | none => phba_cfg_log_verbose
  decide (mask &&& log_verbose ≠ 0) || decide (level1 ≤ '3')

/-- C9: both logging macros forward a message iff the mask meets the configured
verbosity or the severity digit is at most `'3'`; hence any message at severity
`'3'` (KERN_ERR) or more severe is emitted whatever the mask, and
`lpfc_printf_log` falls back from the port's verbosity to the adapter's when no
port is attached. -/
theorem C9_lpfc_log_gating (pv : Option Nat) (v mask : Nat) (level1 : Char) :
    (lpfc_printf_vlog v mask level1 = true ↔
      mask &&& v ≠ 0 ∨ level1 ≤ '3') ∧
    (lpfc_printf_log pv v mask level1 = true ↔
      mask &&& pv.getD v ≠ 0 ∨ level1 ≤ '3') ∧
    (level1 ≤ '3' →
      lpfc_printf_vlog v mask level1 = true ∧
      lpfc_printf_log pv v mask level1 = true) ∧
    lpfc_printf_log none v mask level1 = lpfc_printf_vlog v mask level1 := by
  refine ⟨?_, ?_, ?_, ?_⟩
  · simp [lpfc_printf_vlog]
  · cases pv <;> simp [lpfc_printf_log, Option.getD]
  · intro hsev
    constructor
    · simp [lpfc_printf_vlog, hsev]
    · cases pv <;> simp [lpfc_printf_log, hsev]
  · rfl

/-- Witness for C9: a KERN_ERR message (severity digit `'3'`) passes both gates
even with mask 0 and verbosity 0. -/
theorem C9_lpfc_log_gating_witness :
    lpfc_printf_vlog 0 0 '3' = true ∧ lpfc_printf_log (some 0) 0 0 '3' = true :=
  (C9_lpfc_log_gating (some 0) 0 0 '3').2.2.1 (by decide)

/-- Failure sentinel of the carveout allocator (`ion_priv.h` line 293):
`(ion_phys_addr_t)-1`, all-ones in the unsigned physical-address type — not 0,
because 0 may be a valid physical address. -/
def ION_CARVEOUT_ALLOCATE_FAIL : Nat := 2 ^ 64 - 1

/-- Carveout heap backend state: the free extents `(base, size)` of its
reserved range and the regions currently handed out. -/
structure CarveoutHeap where
  freeRegions : List (Nat × Nat)
  allocated : List (Nat × Nat)
deriving DecidableEq

/-- First-fit test of the carveout pool: the free extent is large enough and
respects the requested alignment. -/
def carveoutFit (size align : Nat) (r : Nat × Nat) : Bool :=
  decide (size ≤ r.2) && (decide (align = 0) || decide (r.1 % align = 0))

/-- First-fit walk over the free extents: carve `size` bytes off the first
fitting extent, keeping any remainder free; `none` when no extent fits. -/
def carveoutAllocGo (size align : Nat) :
    List (Nat × Nat) → Option (List (Nat × Nat) × Nat)
  | [] => none
  | r :: rest =>
    if carveoutFit size align r then
      some ((if size < r.2 then [(r.1 + size, r.2 - size)] else []) ++ rest, r.1)
    else
      match carveoutAllocGo size align rest with
      | none => none
      | some (rest', b) => some (r :: rest', b)

/-- Modelled from the spec: the body of `ion_carveout_allocate` lives in
`ion_carveout_heap.c`, not in this fragment (declared at `ion_priv.h` lines
285-286).  It carves a region out of the heap's pool of free extents, records
it as live, and returns its base physical address; on exhaustion it returns
`ION_CARVEOUT_ALLOCATE_FAIL` (per the header comment, 0 may be a valid
physical address, so the all-ones sentinel signals failure) and leaves the
heap untouched. -/
def ion_carveout_allocate (h : CarveoutHeap) (size align : Nat) :
    CarveoutHeap × Nat :=
  match carveoutAllocGo size align h.freeRegions with
  | none => (h, ION_CARVEOUT_ALLOCATE_FAIL)
  | some (fr, b) => (CarveoutHeap.mk fr ((b, size) :: h.allocated), b)

/-- Modelled from the spec: `ion_carveout_free` (declared at `ion_priv.h` lines
287-288) releases a region previously returned by `ion_carveout_allocate`,
putting it back among the free extents. -/
def ion_carveout_free (h : CarveoutHeap) (addr size : Nat) : CarveoutHeap :=
  CarveoutHeap.mk ((addr, size) :: h.freeRegions) (h.allocated.erase (addr, size))

theorem carveoutAllocGo_base (size align : Nat) :
    ∀ (l : List (Nat × Nat)) (fr : List (Nat × Nat)) (b : Nat),
      carveoutAllocGo size align l = some (fr, b) →
      ∃ r ∈ l, r.1 = b ∧ size ≤ r.2 := by
  intro l
  induction l with
  | nil => intro fr b h; simp [carveoutAllocGo] at h
  | cons r rest ih =>
    intro fr b h
    by_cases hfit : carveoutFit size align r = true
    · simp only [carveoutAllocGo, if_pos hfit, Option.some.injEq,
        Prod.mk.injEq] at h
      refine ⟨r, List.mem_cons_self r rest, h.2, ?_⟩
      have := hfit
      simp only [carveoutFit, Bool.and_eq_true, decide_eq_true_eq] at this
      exact this.1
    · simp only [carveoutAllocGo, if_neg hfit] at h
      cases hgo : carveoutAllocGo size align rest with
      | none => rw [hgo] at h; simp at h
      | some p =>
        obtain ⟨rest', b'⟩ := p
        rw [hgo] at h
        simp only [Option.some.injEq] at h
        obtain ⟨g, hg, hg1, hg2⟩ := ih rest' b' hgo
        have hb : b' = b := by
          have := congrArg Prod.snd h
          simpa using this
        exact ⟨g, List.mem_cons_of_mem r hg, hb ▸ hg1, hg2⟩

/-- C10: `ion_carveout_allocate` signals failure with the sentinel
`ION_CARVEOUT_ALLOCATE_FAIL` = `(ion_phys_addr_t)-1`, which is not 0; a return
equal to the sentinel means nothing was allocated (the heap is unchanged),
while any other return is the base address of a region now recorded live,
released again by `ion_carveout_free`. -/
theorem C10_carveout_fail_sentinel (h : CarveoutHeap) (size align : Nat)
    (hbound : ∀ r ∈ h.freeRegions, r.1 + r.2 ≤ ION_CARVEOUT_ALLOCATE_FAIL)
    (hsize : 0 < size) :
    ION_CARVEOUT_ALLOCATE_FAIL = 2 ^ 64 - 1 ∧
    ION_CARVEOUT_ALLOCATE_FAIL ≠ 0 ∧
    ((ion_carveout_allocate h size align).2 = ION_CARVEOUT_ALLOCATE_FAIL →
      (ion_carveout_allocate h size align).1 = h) ∧
    ((ion_carveout_allocate h size align).2 ≠ ION_CARVEOUT_ALLOCATE_FAIL →
      ((ion_carveout_allocate h size align).2, size) ∈
        (ion_carveout_allocate h size align).1.allocated ∧
      (∃ r ∈ h.freeRegions, (ion_carveout_allocate h size align).2 = r.1) ∧
      (ion_carveout_free (ion_carveout_allocate h size align).1
          (ion_carveout_allocate h size align).2 size).freeRegions.head? =
        some ((ion_carveout_allocate h size align).2, size)) := by
  refine ⟨rfl, by decide, ?_⟩
  cases hgo : carveoutAllocGo size align h.freeRegions with
  | none =>
    constructor
    · intro _; simp [ion_carveout_allocate, hgo]
    · intro hne
      exact absurd (by simp [ion_carveout_allocate, hgo]) hne
  | some p =>
    obtain ⟨fr, b⟩ := p
    obtain ⟨r, hr, hr1, hr2⟩ :=
      carveoutAllocGo_base size align h.freeRegions fr b hgo
    have hblt : b < ION_CARVEOUT_ALLOCATE_FAIL := by
      have := hbound r hr
      omega
    have hbne : b ≠ ION_CARVEOUT_ALLOCATE_FAIL := Nat.ne_of_lt hblt
    constructor
    · intro heq
      exact absurd (by simpa [ion_carveout_allocate, hgo] using heq) hbne
    · intro _
      refine ⟨by simp [ion_carveout_allocate, hgo],
        ⟨r, hr, by simp [ion_carveout_allocate, hgo, hr1]⟩,
        by simp [ion_carveout_allocate, hgo, ion_carveout_free]⟩

/-- Witness for C10: on a heap whose free range starts at physical address 0,
carving 4096 bytes succeeds and returns base 0 — a valid address, distinct from
the failure sentinel — recorded as a live region. -/
theorem C10_carveout_fail_sentinel_witness :
    ((0 : Nat), (4096 : Nat)) ∈
      (ion_carveout_allocate (CarveoutHeap.mk [(0, 8192)] []) 4096 0).1.allocated :=
  ((C10_carveout_fail_sentinel (CarveoutHeap.mk [(0, 8192)] []) 4096 0
    (by decide) (by decide)).2.2.2 (by decide)).1

end KernelSpec
